import Mathlib

/-!
# CudaSift driver (`mainSift.cpp`): a shallow embedding

The file embeds the host-side driver of the CUDA SIFT demo: the option table
of `buildParser`, the argument handling and the summary statistics of `main`,
the diagnostic routine `MatchAll` and the overlay routine `PrintMatchData`.

Numeric conventions.
* C `int` values are `Int`; no wrap-around is modelled.
* Finite `float`/`double` values are exact rationals (rounding and overflow to
  infinity are not modelled).  Where the source can divide by zero the result is
  an `FVal`, which adds the IEEE special values `+inf`, `-inf` and `NaN`.
* `(int) e` is truncation toward zero.
* An access outside an array is an explicit `Fault`.
-/

namespace CudaSift

/-! ## Numbers -/

/-- The C cast `(int) q` of a finite floating value: truncation toward zero. -/
def truncToInt (q : ℚ) : Int := if 0 ≤ q then ⌊q⌋ else ⌈q⌉

/-- A floating value that may be one of the IEEE special values. -/
inductive FVal where
  | fin (q : ℚ)
  | pinf
  | ninf
  | nan
deriving DecidableEq

namespace FVal

/-- Holds exactly of the finite values. -/
def isFinite : FVal → Bool
  | fin _ => true
  | _ => false

/-- Floating division `a / b`; a zero divisor gives an infinity or NaN. -/
def div : FVal → FVal → FVal
  | nan, _ => nan
  | _, nan => nan
  | fin a, fin b =>
      if b = 0 then (if a = 0 then nan else if 0 < a then pinf else ninf) else fin (a / b)
  | fin _, pinf => fin 0
  | fin _, ninf => fin 0
  | pinf, fin b => if 0 ≤ b then pinf else ninf
  | ninf, fin b => if 0 ≤ b then ninf else pinf
  | pinf, pinf => nan
  | pinf, ninf => nan
  | ninf, pinf => nan
  | ninf, ninf => nan

/-- Floating negation. -/
def neg : FVal → FVal
  | fin a => fin (-a)
  | pinf => ninf
  | ninf => pinf
  | nan => nan

/-- Floating addition `a + b`. -/
def add : FVal → FVal → FVal
  | nan, _ => nan
  | _, nan => nan
  | fin a, fin b => fin (a + b)
  | fin _, pinf => pinf
  | fin _, ninf => ninf
  | pinf, fin _ => pinf
  | ninf, fin _ => ninf
  | pinf, pinf => pinf
  | ninf, ninf => ninf
  | pinf, ninf => nan
  | ninf, pinf => nan

/-- Floating subtraction `a - b`. -/
def sub (a b : FVal) : FVal := add a (neg b)

/-- Floating multiplication `a * b`. -/
def mul : FVal → FVal → FVal
  | nan, _ => nan
  | _, nan => nan
  | fin a, fin b => fin (a * b)
  | fin a, pinf => if a = 0 then nan else if 0 < a then pinf else ninf
  | fin a, ninf => if a = 0 then nan else if 0 < a then ninf else pinf
  | pinf, fin b => if b = 0 then nan else if 0 < b then pinf else ninf
  | ninf, fin b => if b = 0 then nan else if 0 < b then ninf else pinf
  | pinf, pinf => pinf
  | ninf, ninf => pinf
  | pinf, ninf => ninf
  | ninf, pinf => ninf

/-- The comparison `a < b`; false as soon as one side is NaN. -/
def lt : FVal → FVal → Bool
  | nan, _ => false
  | _, nan => false
  | fin a, fin b => decide (a < b)
  | fin _, pinf => true
  | fin _, ninf => false
  | pinf, _ => false
  | ninf, fin _ => true
  | ninf, pinf => true
  | ninf, ninf => false

end FVal

/-! ## Command surface -/

/-- A stored option value: the parser keeps `int` and `float` options. -/
inductive OptValue where
  | int (n : Int)
  | float (q : ℚ)
deriving DecidableEq

/-- One `parser.add_option("--name").action(..).type(..).set_default(..)` entry. -/
structure OptionSpec where
  name : String
  action : String
  type : String
  set_default : OptValue

/-- The parser object returned by `buildParser`. -/
structure OptionParser where
  usage : String
  version : String
  description : String
  epilog : String
  options : List OptionSpec

/-- The option table of `buildParser` (lines 23-44). -/
def buildParser : OptionParser where
  usage := "%prog [OPTION]... left.pgm right.pgm out.pgm"
  version := "%prog 0.3"
  description := "CUDA SIFT"
  epilog := ""
  options :=
    [ ⟨"octaves", "store", "int", .int 5⟩,
      ⟨"initialblur", "store", "float", .float 0.0⟩,
      ⟨"constrastthreshold", "store", "float", .float 5.0⟩,
      ⟨"curvaturethreshold", "store", "float", .float 16.0⟩,
      ⟨"descriptorthreshold", "store", "float", .float 0.2⟩,
      ⟨"matchratio", "store", "float", .float 0.8⟩ ]

/-- The names the parser has registered. -/
def OptionParser.names (p : OptionParser) : List String := p.options.map (·.name)

/-- The option values of a command line: destination name and stored value. -/
abbrev Values := List (String × OptValue)

/-- The values `parse_args` yields when the command line gives no option:
every registered option at its default. -/
def OptionParser.defaults (p : OptionParser) : Values :=
  p.options.map fun o => (o.name, o.set_default)

/-- The lookup `options.get(name)`: the stored value of a registered name,
`none` for a name that was never registered. -/
def Values.get (vals : Values) (name : String) : Option OptValue := vals.lookup name

/-- The configuration `main` reads at lines 91-96, one lookup per variable. -/
structure Config where
  initBlur : Option OptValue
  thresh : Option OptValue
  curvThresh : Option OptValue
  numOctaves : Option OptValue
  descThresh : Option OptValue
  matchRatio : Option OptValue

/-- The lookups of `main`, with the option names as spelled at lines 91-96. -/
def mainConfig (options : Values) : Config where
  initBlur := options.get "initialblur"
  thresh := options.get "contrastthreshold"
  curvThresh := options.get "curvaturethreshold"
  numOctaves := options.get "octaves"
  descThresh := options.get "descriptorthreshold"
  matchRatio := options.get "matchratio"

/-- What the argument handling of `main` (lines 54-63) does with the
positional arguments. -/
inductive ArgResult where
  | help (exitCode : Int)
  | outOfRange (index size : Nat)
  | files (left_fn right_fn out_fn : String)
deriving DecidableEq

/-- Lines 56-63 of `main`: the size guard, then the reads `args[0]`, `args[1]`
and `args[2]`; a read at or past `args.size()` is reported as `outOfRange`. -/
def mainArgs (args : List String) : ArgResult :=
  if args.length < 2 then .help 1
  else
    match args[0]? with
    | none => .outOfRange 0 args.length
    | some left_fn =>
      match args[1]? with
      | none => .outOfRange 1 args.length
      | some right_fn =>
        match args[2]? with
        | none => .outOfRange 2 args.length
        | some out_fn => .files left_fn right_fn out_fn

/-- The trailing arguments `numLoops, minScore, maxAmbiguity, thresh` of a call
to `FindHomography` or `ImproveHomography`, named as in the declaration at
line 16. -/
structure HomographyArgs where
  numLoops : Int
  minScore : ℚ
  maxAmbiguity : ℚ
  thresh : ℚ

/-- Modelled from the spec: the declaration of `FindHomography` lives in
`cudaSift.h`; its trailing parameters are taken in the order of section 4.2
(attempts, minimum score, maximum ambiguity, distance threshold), which is the
order of the declared `ImproveHomography`.  The values are those of line 107. -/
def mainFindHomographyArgs (matchRatio : ℚ) : HomographyArgs where
  numLoops := 10000
  minScore := (0.50 / 0.80) * matchRatio
  maxAmbiguity := 1.00
  thresh := 5.0

/-- The arguments of the call to `ImproveHomography` at line 108. -/
def mainImproveHomographyArgs (matchRatio : ℚ) : HomographyArgs where
  numLoops := 3
  minScore := matchRatio
  maxAmbiguity := 0.95
  thresh := 3.0

/-- The summary percentage of line 117:
`100.0f * numMatches / std::min(numPts1, numPts2)` in `float` arithmetic. -/
def mainPerc (numMatches numPts1 numPts2 : Int) : FVal :=
  FVal.div (FVal.mul (.fin 100.0) (.fin numMatches)) (.fin (min numPts1 numPts2 : Int))

/-! ## Keypoints, collections and images -/

/-- An access outside an array. -/
inductive Fault where
  | siftRead (index : Int)
  | pixelWrite (index : Int)
deriving DecidableEq

/-- The fields of `SiftPoint` that the driver reads; `match_index` is the C
field `match`, and `data` is the array `float data[128]`. -/
structure SiftPoint where
  xpos : ℚ
  ypos : ℚ
  scale : ℚ
  orientation : ℚ
  score : ℚ
  ambiguity : ℚ
  match_index : Int
  match_error : ℚ
  data : Fin 128 → ℚ

/-- A keypoint collection: the count `numPts` and the host array `h_data`. -/
structure SiftData where
  numPts : Int
  h_data : List SiftPoint

/-- The read `sift[k]` for a C `int` index `k`. -/
def SiftData.read (d : SiftData) (k : Int) : Except Fault SiftPoint :=
  if 0 ≤ k then
    match d.h_data[k.toNat]? with
    | some p => .ok p
    | none => .error (.siftRead k)
  else .error (.siftRead k)

/-- The keypoints `sift[0] .. sift[numPts-1]` that a loop `i < numPts` visits;
when the array is shorter the first read past its end is the fault. -/
def SiftData.points (d : SiftData) : Except Fault (List SiftPoint) :=
  if d.numPts.toNat ≤ d.h_data.length then .ok (d.h_data.take d.numPts.toNat)
  else .error (.siftRead d.h_data.length)

/-- A host image: `width`, `height` and the pixel buffer `h_data`. -/
structure CudaImage where
  width : Int
  height : Int
  h_data : List ℚ

/-! ## MatchAll (lines 127-166) -/

/-- The descriptor product of lines 140-142: `sum += data1[k]*data2[k]`, `k < 128`. -/
def descriptorSum (data1 data2 : Fin 128 → ℚ) : ℚ :=
  (List.finRange 128).foldl (fun sum k => sum + data1 k * data2 k) 0

/-- The homogeneous denominator `den` of line 143. -/
def matchDen (homography : Fin 9 → ℚ) (p1 : SiftPoint) : ℚ :=
  homography 6 * p1.xpos + homography 7 * p1.ypos + homography 8

/-- The value `dx` of line 144: the quotient by `den`, minus `sift2[j].xpos`. -/
def matchDx (homography : Fin 9 → ℚ) (p1 p2 : SiftPoint) : FVal :=
  FVal.sub
    (FVal.div (.fin (homography 0 * p1.xpos + homography 1 * p1.ypos + homography 2))
      (.fin (matchDen homography p1)))
    (.fin p2.xpos)

/-- The value `dy` of line 145. -/
def matchDy (homography : Fin 9 → ℚ) (p1 p2 : SiftPoint) : FVal :=
  FVal.sub
    (FVal.div (.fin (homography 3 * p1.xpos + homography 4 * p1.ypos + homography 5))
      (.fin (matchDen homography p1)))
    (.fin p2.ypos)

/-- The reprojection error `err = dx*dx + dy*dy` of line 146. -/
def matchErr (homography : Fin 9 → ℚ) (p1 p2 : SiftPoint) : FVal :=
  FVal.add
    (FVal.mul (matchDx homography p1 p2) (matchDx homography p1 p2))
    (FVal.mul (matchDy homography p1 p2) (matchDy homography p1 p2))

/-- One line printed at lines 150-158 for a pair `(i, j)`; `err` is the value
whose `(int)sqrt(err)` is printed. -/
structure MatchLine where
  marker : String
  j : Int
  sum : ℚ
  err : FVal
  scale : ℚ
  orientation : Int

/-- The state of the loop over `j`: the flag `found` and the lines printed. -/
structure MatchRow where
  found : Bool
  lines : List MatchLine

/-- The body of the loop over `j` (lines 139-159). -/
def matchPair (homography : Fin 9 → ℚ) (p1 : SiftPoint) (row : MatchRow)
    (jp : Nat × SiftPoint) : MatchRow :=
  let j : Int := jp.1
  let p2 := jp.2
  let sum := descriptorSum p1.data p2.data
  let err := matchErr homography p1 p2
  let found := if FVal.lt err (.fin 100.0) then true else row.found
  if FVal.lt err (.fin 100.0) ∨ j = p1.match_index then
    let marker :=
      if j = p1.match_index ∧ FVal.lt err (.fin 100.0) then " *"
      else if j = p1.match_index then " -"
      else if FVal.lt err (.fin 100.0) then " +"
      else "  "
    { found := found
      lines := row.lines ++
        [⟨marker, j, sum, err, p2.scale, truncToInt p2.orientation⟩] }
  else { found := found, lines := row.lines }

/-- The loop over `j` for one keypoint of the first collection. -/
def matchRow (homography : Fin 9 → ℚ) (p1 : SiftPoint) (pts2 : List SiftPoint) : MatchRow :=
  pts2.enum.foldl (matchPair homography p1) ⟨false, []⟩

/-- What `MatchAll` prints: one row per keypoint of the first collection and
the final `numFound`. -/
structure MatchAllOutput where
  rows : List MatchRow
  numFound : Int

/-- The loop over `i` (lines 134-164): `numFound` is incremented for every row
whose flag `found` is set. -/
def matchRows (homography : Fin 9 → ℚ) (pts1 pts2 : List SiftPoint) : MatchAllOutput :=
  pts1.foldl
    (fun out p1 =>
      let row := matchRow homography p1 pts2
      { rows := out.rows ++ [row]
        numFound := if row.found then out.numFound + 1 else out.numFound })
    ⟨[], 0⟩

/-- The routine `MatchAll`. -/
def MatchAll (siftData1 siftData2 : SiftData) (homography : Fin 9 → ℚ) :
    Except Fault MatchAllOutput := do
  let pts1 ← siftData1.points
  let pts2 ← siftData2.points
  pure (matchRows homography pts1 pts2)

/-! ## PrintMatchData (lines 168-212) -/

/-- The three objects `PrintMatchData` receives by reference. -/
structure PrintState where
  siftData1 : SiftData
  siftData2 : SiftData
  img : CudaImage

/-- The store `h_img[idx] = v`. -/
def writePixel (st : PrintState) (idx : Int) (v : ℚ) : Except Fault PrintState :=
  if 0 ≤ idx ∧ idx < st.img.h_data.length then
    .ok { st with img := { st.img with h_data := st.img.h_data.set idx.toNat v } }
  else .error (.pixelWrite idx)

/-- A sequence of stores, in order. -/
def writePixels (st : PrintState) (ws : List (Int × ℚ)) : Except Fault PrintState :=
  ws.foldlM (fun s e => writePixel s e.1 e.2) st

/-- The length `len` of line 190. -/
def lineLen (dx dy : ℚ) : Int :=
  truncToInt (if |dx| > |dy| then |dx| else |dy|)

/-- The pixel index `y*w+x` of lines 192-194 for loop counter `l`. -/
def lineIndex (w : Int) (xpos ypos dx dy : ℚ) (len l : Int) : Int :=
  let x := truncToInt (xpos + dx * l / len)
  let y := truncToInt (ypos + dy * l / len)
  y * w + x

/-- The indices written by the loop of lines 191-195, in order. -/
def lineIndices (w : Int) (xpos ypos dx dy : ℚ) : List Int :=
  (List.range (lineLen dx dy).toNat).map fun (l : Nat) =>
    lineIndex w xpos ypos dx dy (lineLen dx dy) (l : Int)

/-- The marker centre `(x, y)` of lines 199-200. -/
def markerX (xpos : ℚ) : Int := truncToInt (xpos + 0.5)

/-- The marker arm length `s` of line 201. -/
def markerSize (w h : Int) (xpos ypos scale : ℚ) : Int :=
  let x := markerX xpos
  let y := markerX ypos
  min x (min y (min (w - x - 2) (min (h - y - 2) (truncToInt (1.41 * scale)))))

/-- The indices one loop `for (k = 0; k < s; k++) h_img[p-k] = h_img[p+k] =
h_img[p-k*w] = h_img[p+k*w] = v` stores to; a chained assignment stores right to
left. -/
def crossIndices (w p s : Int) : List Int :=
  (List.range s.toNat).flatMap fun (k : Nat) =>
    [p + (k : Int) * w, p - (k : Int) * w, p + (k : Int), p - (k : Int)]

/-- The stores of lines 199-208: the dark cross around `p + (w+1)`, then the
bright cross around `p`. -/
def markerWrites (w h : Int) (xpos ypos scale : ℚ) : List (Int × ℚ) :=
  let x := markerX xpos
  let y := markerX ypos
  let s := markerSize w h xpos ypos scale
  let p := y * w + x
  (crossIndices w (p + (w + 1)) s).map (fun i => (i, 0.0)) ++
    (crossIndices w (p + (w + 1) - (w + 1)) s).map (fun i => (i, 255.0))

/-- The body of the loop over `j` (lines 178-209). -/
def printBody (st : PrintState) (j : Nat) : Except Fault PrintState := do
  let w := st.img.width
  let h := st.img.height
  let p1 ← st.siftData1.read j
  let k := p1.match_index
  let st ←
    if p1.match_error < 10 then do
      let p2 ← st.siftData2.read k
      let dx := p2.xpos - p1.xpos
      let dy := p2.ypos - p1.ypos
      writePixels st ((lineIndices w p1.xpos p1.ypos dx dy).map fun i => (i, 255.0))
    else pure st
  writePixels st (markerWrites w h p1.xpos p1.ypos p1.scale)

/-- The routine `PrintMatchData`: the loop `for (j = 0; j < numPts; j++)`. -/
def PrintMatchData (st : PrintState) : Except Fault PrintState :=
  (List.range st.siftData1.numPts.toNat).foldlM printBody st

/-! ## Concrete inputs used in the evaluations below -/

/-- A keypoint at `(x, y)` with the given scale, match index and match error;
orientation 0, score 1, ambiguity 0 and an all-zero descriptor. -/
def samplePoint (x y scale : ℚ) (match_index : Int) (match_error : ℚ) : SiftPoint :=
  ⟨x, y, scale, 0, 1, 0, match_index, match_error, fun _ => 0⟩

/-- A homography whose last row is zero: `[1 0 0; 0 1 0; 0 0 0]`. -/
def zeroRowHomography : Fin 9 → ℚ := fun i => if i = 0 ∨ i = 4 then 1 else 0

/-- An all-black image of the given size. -/
def blankImage (w h : Nat) : CudaImage := ⟨w, h, List.replicate (w * h) 0⟩

/-- A collection with one keypoint at `(1, 1)` matched to a keypoint at
`(3, 1)` of the second collection, over a blank 4 x 4 image. -/
def sampleState : PrintState :=
  ⟨⟨1, [samplePoint 1 1 1 0 0]⟩, ⟨1, [samplePoint 3 1 1 0 0]⟩, blankImage 4 4⟩

/-- The same keypoint matched to a keypoint at `(9, 9)`, a position of a
16 x 16 second image, drawn over the blank 4 x 4 first image. -/
def unequalImagesState : PrintState :=
  ⟨⟨1, [samplePoint 1 1 1 0 0]⟩, ⟨1, [samplePoint 9 9 1 0 0]⟩, blankImage 4 4⟩

/-- A keypoint whose match index is -1 and whose match error is 0, with an
empty second collection. -/
def unsetMatchState : PrintState :=
  ⟨⟨1, [samplePoint 1 1 1 (-1) 0]⟩, ⟨0, []⟩, blankImage 4 4⟩

/-- A keypoint whose match index is -1 and whose match error is 10, with an
empty second collection. -/
def unreportedState : PrintState :=
  ⟨⟨1, [samplePoint 1 1 1 (-1) 10]⟩, ⟨0, []⟩, blankImage 4 4⟩

/-! ## The frame of the pixel stores -/

/-- The part of the state that a pixel store leaves alone: both collections,
the image size and the length of the pixel buffer. -/
def Frame (st st' : PrintState) : Prop :=
  st'.siftData1 = st.siftData1 ∧ st'.siftData2 = st.siftData2 ∧
    st'.img.width = st.img.width ∧ st'.img.height = st.img.height ∧
    st'.img.h_data.length = st.img.h_data.length

/-! ## Theorems: command surface -/

/-- With fewer than two positional arguments `main` prints the help and
returns 1. -/
theorem mainArgs_help_of_length_lt_two (args : List String) (h : args.length < 2) :
    mainArgs args = .help 1 := by
  simp [mainArgs, h]

/-- With exactly two positional arguments the guard is passed and `args[2]` is
read past the end. -/
theorem mainArgs_of_length_eq_two (args : List String) (h : args.length = 2) :
    mainArgs args = .outOfRange 2 2 := by
  match args, h with
  | [a, b], _ => simp [mainArgs]

/-- C1 (evaluation at the failing input): the command line
`prog left.pgm right.pgm` supplies two of the three positional arguments; `main`
does not print the help and return 1 but goes on to read `args[2]`, one past the
end of the two-element vector. -/
theorem C1_mainArgs_two_positionals :
    ["left.pgm", "right.pgm"].length < 3 ∧
      mainArgs ["left.pgm", "right.pgm"] = .outOfRange 2 2 ∧
      mainArgs ["left.pgm", "right.pgm"] ≠ .help 1 := by
  simp [mainArgs]

/-- C2 (evaluation at the failing input): on a command line without options the
lookup of `contrastthreshold` finds nothing, because `buildParser` registered
the option as `constrastthreshold`; the other five lookups return the
registered defaults. -/
theorem C2_mainConfig_defaults :
    "contrastthreshold" ∉ buildParser.names ∧
      (mainConfig buildParser.defaults).thresh = none ∧
      buildParser.defaults.get "constrastthreshold" = some (.float 5.0) ∧
      (mainConfig buildParser.defaults).numOctaves = some (.int 5) ∧
      (mainConfig buildParser.defaults).initBlur = some (.float 0.0) ∧
      (mainConfig buildParser.defaults).curvThresh = some (.float 16.0) ∧
      (mainConfig buildParser.defaults).descThresh = some (.float 0.2) ∧
      (mainConfig buildParser.defaults).matchRatio = some (.float 0.8) := by
  simp [mainConfig, Values.get, buildParser, OptionParser.defaults, OptionParser.names,
    List.lookup]

/-- C5 (counterexample): at the default match ratio 0.8 the maximum ambiguity
passed to `FindHomography` is 1.00 and the one passed to `ImproveHomography` is
0.95; neither is the match ratio. -/
theorem C5_maxAmbiguity_counterexample :
    (mainFindHomographyArgs 0.8).maxAmbiguity ≠ 0.8 ∧
      (mainImproveHomographyArgs 0.8).maxAmbiguity ≠ 0.8 := by
  norm_num [mainFindHomographyArgs, mainImproveHomographyArgs]

/-- C5 (amended): for every match ratio `r`, `main` passes `r` to
`ImproveHomography` as the minimum score and `(0.50/0.80)*r` to `FindHomography`
as the minimum score; the maximum ambiguity it passes is the constant 0.95 to
`ImproveHomography` and the constant 1.00 to `FindHomography`. -/
theorem C5_homography_thresholds (r : ℚ) :
    (mainImproveHomographyArgs r).minScore = r ∧
      (mainImproveHomographyArgs r).maxAmbiguity = 0.95 ∧
      (mainFindHomographyArgs r).minScore = (0.50 / 0.80) * r ∧
      (mainFindHomographyArgs r).maxAmbiguity = 1 := by
  norm_num [mainFindHomographyArgs, mainImproveHomographyArgs]

/-- C4 (counterexample): with an empty first collection the divisor
`min(0, 7)` is zero; the division is performed and gives `+inf` for three
matches and NaN for none. -/
theorem C4_mainPerc_counterexample :
    min (0 : Int) 7 = 0 ∧ mainPerc 3 0 7 = FVal.pinf ∧ mainPerc 0 0 7 = FVal.nan := by
  norm_num [mainPerc, FVal.div, FVal.mul]

/-- C4 (amended): the summary percentage is `100 * numMatches / min(n1, n2)`
whenever both collections are non-empty; when the smaller collection is empty
the division by zero is performed and yields NaN for `numMatches = 0`, `+inf`
for a positive and `-inf` for a negative `numMatches`. -/
theorem C4_mainPerc_value (numMatches n1 n2 : Int) :
    mainPerc numMatches n1 n2 =
      if min n1 n2 = 0 then
        (if numMatches = 0 then FVal.nan else if 0 < numMatches then FVal.pinf else FVal.ninf)
      else FVal.fin (100 * numMatches / (min n1 n2 : Int)) := by
  have hc : ((min n1 n2 : Int) : ℚ) = 0 ↔ min n1 n2 = 0 := Int.cast_eq_zero
  have hm : (0 : ℚ) < 100 * (numMatches : ℚ) ↔ 0 < numMatches := by
    constructor
    · intro h
      have : (0 : ℚ) < (numMatches : ℚ) := by linarith
      exact_mod_cast this
    · intro h
      have : (0 : ℚ) < (numMatches : ℚ) := by exact_mod_cast h
      linarith
  have hz : (100 : ℚ) * (numMatches : ℚ) = 0 ↔ numMatches = 0 := by
    constructor
    · intro h
      have : (numMatches : ℚ) = 0 := by linarith
      exact_mod_cast this
    · intro h
      simp [h]
  unfold mainPerc FVal.mul FVal.div
  norm_num only
  simp only [hc]
  by_cases h : min n1 n2 = 0
  · simp only [h, if_true]
    by_cases h0 : numMatches = 0
    · simp [h0]
    · simp only [hz, hm, h0, if_false]
  · simp only [h, if_false]

/-! ## Theorems: MatchAll -/

/-- A quotient by a zero denominator is not finite. -/
theorem FVal.div_zero_cases (a : ℚ) :
    FVal.div (.fin a) (.fin 0) = .pinf ∨ FVal.div (.fin a) (.fin 0) = .ninf ∨
      FVal.div (.fin a) (.fin 0) = .nan := by
  unfold FVal.div
  by_cases h0 : a = 0
  · simp [h0]
  · by_cases hp : 0 < a
    · simp [h0, hp]
    · simp [h0, hp]

/-- Squaring a non-finite value and adding such squares gives `+inf` or NaN. -/
theorem FVal.sq_add_sq_of_not_finite (u v b c : FVal)
    (hu : u = .pinf ∨ u = .ninf ∨ u = .nan) (hv : v = .pinf ∨ v = .ninf ∨ v = .nan)
    (hb : b.isFinite = true) (hc : c.isFinite = true) :
    FVal.add (FVal.mul (FVal.sub u b) (FVal.sub u b)) (FVal.mul (FVal.sub v c) (FVal.sub v c))
        = .pinf ∨
      FVal.add (FVal.mul (FVal.sub u b) (FVal.sub u b)) (FVal.mul (FVal.sub v c) (FVal.sub v c))
        = .nan := by
  cases b <;> simp [FVal.isFinite] at hb
  cases c <;> simp [FVal.isFinite] at hc
  rcases hu with rfl | rfl | rfl <;> rcases hv with rfl | rfl | rfl <;>
    simp [FVal.add, FVal.mul, FVal.sub, FVal.neg]

/-- With a zero denominator the reprojection error of every pair is `+inf` or
NaN. -/
theorem matchErr_of_den_zero (homography : Fin 9 → ℚ) (p1 p2 : SiftPoint)
    (hden : matchDen homography p1 = 0) :
    matchErr homography p1 p2 = .pinf ∨ matchErr homography p1 p2 = .nan := by
  unfold matchErr matchDx matchDy
  rw [hden]
  exact FVal.sq_add_sq_of_not_finite _ _ _ _ (FVal.div_zero_cases _) (FVal.div_zero_cases _)
    rfl rfl

/-- With a zero denominator the test `err < 100` fails for every pair. -/
theorem matchErr_lt_of_den_zero (homography : Fin 9 → ℚ) (p1 p2 : SiftPoint)
    (hden : matchDen homography p1 = 0) :
    FVal.lt (matchErr homography p1 p2) (.fin 100.0) = false := by
  rcases matchErr_of_den_zero homography p1 p2 hden with h | h <;> simp [h, FVal.lt]

/-- With a zero denominator one step of the loop over `j` leaves `found` as it
was and prints the line of the pair exactly when `j` is the match. -/
theorem matchPair_of_den_zero (homography : Fin 9 → ℚ) (p1 : SiftPoint) (row : MatchRow)
    (jp : Nat × SiftPoint) (hden : matchDen homography p1 = 0) :
    matchPair homography p1 row jp =
      if (jp.1 : Int) = p1.match_index then
        { found := row.found
          lines := row.lines ++
            [⟨" -", jp.1, descriptorSum p1.data jp.2.data, matchErr homography p1 jp.2,
              jp.2.scale, truncToInt jp.2.orientation⟩] }
      else row := by
  unfold matchPair
  simp only [matchErr_lt_of_den_zero homography p1 jp.2 hden]
  by_cases hj : (jp.1 : Int) = p1.match_index <;> simp [hj]

/-- The flag `found` after the loop over `j`, started from any row: it is set
iff it was set or some pair has `err < 100`. -/
theorem matchPair_foldl_found (homography : Fin 9 → ℚ) (p1 : SiftPoint)
    (l : List (Nat × SiftPoint)) (row : MatchRow) :
    (l.foldl (matchPair homography p1) row).found =
      (row.found || l.any fun jp => FVal.lt (matchErr homography p1 jp.2) (.fin 100.0)) := by
  induction l generalizing row with
  | nil => simp
  | cons jp l ih =>
    rw [List.foldl_cons, ih]
    unfold matchPair
    by_cases hlt : FVal.lt (matchErr homography p1 jp.2) (.fin 100.0) = true
    · simp [hlt]
    · simp only [Bool.not_eq_true] at hlt
      by_cases hj : (jp.1 : Int) = p1.match_index <;> simp [hlt, hj]

/-- The final `numFound` is the starting count plus the number of keypoints
whose row has `found` set. -/
theorem matchRows_foldl_numFound (homography : Fin 9 → ℚ) (pts2 : List SiftPoint)
    (pts1 : List SiftPoint) (out : MatchAllOutput) :
    (pts1.foldl
        (fun out p1 =>
          let row := matchRow homography p1 pts2
          { rows := out.rows ++ [row]
            numFound := if row.found then out.numFound + 1 else out.numFound })
        out).numFound =
      out.numFound + ((pts1.filter fun p1 => (matchRow homography p1 pts2).found).length : Int) := by
  induction pts1 generalizing out with
  | nil => simp
  | cons p1 pts1 ih =>
    rw [List.foldl_cons, ih]
    by_cases hf : (matchRow homography p1 pts2).found = true
    · simp [hf, List.filter_cons]
      ring
    · simp [hf, List.filter_cons]

/-- The count `numFound` is the number of keypoints whose row has `found` set. -/
theorem matchRows_numFound (homography : Fin 9 → ℚ) (pts1 pts2 : List SiftPoint) :
    (matchRows homography pts1 pts2).numFound =
      ((pts1.filter fun p1 => (matchRow homography p1 pts2).found).length : Int) := by
  unfold matchRows
  rw [matchRows_foldl_numFound]
  simp

/-- With a zero denominator the loop over `j` keeps `found` and appends the
line of each pair whose `j` is the match. -/
theorem matchPair_foldl_of_den_zero (homography : Fin 9 → ℚ) (p1 : SiftPoint)
    (hden : matchDen homography p1 = 0) (l : List (Nat × SiftPoint)) (row : MatchRow) :
    l.foldl (matchPair homography p1) row =
      { found := row.found
        lines := row.lines ++
          (l.filter fun jp => decide ((jp.1 : Int) = p1.match_index)).map fun jp =>
            ⟨" -", jp.1, descriptorSum p1.data jp.2.data, matchErr homography p1 jp.2,
              jp.2.scale, truncToInt jp.2.orientation⟩ } := by
  induction l generalizing row with
  | nil => simp
  | cons jp l ih =>
    rw [List.foldl_cons, ih, matchPair_of_den_zero homography p1 row jp hden]
    by_cases hj : (jp.1 : Int) = p1.match_index
    · simp [hj, List.filter_cons]
    · simp [hj, List.filter_cons]

/-- When both collections can be read, `MatchAll` prints the rows of `matchRows`. -/
theorem MatchAll_eq_matchRows (siftData1 siftData2 : SiftData) (homography : Fin 9 → ℚ)
    (pts1 pts2 : List SiftPoint) (h1 : siftData1.points = .ok pts1)
    (h2 : siftData2.points = .ok pts2) :
    MatchAll siftData1 siftData2 homography = .ok (matchRows homography pts1 pts2) := by
  simp [MatchAll, h1, h2, bind, Except.bind, pure, Except.pure]

/-- C3 (counterexample): for the keypoint `(1, 1)` and a homography whose last
row is zero the denominator is exactly 0, yet `MatchAll` divides by it: the
error of the pair is `+inf`, and the line printed for the pair carries that
value. -/
theorem C3_MatchAll_counterexample :
    matchDen zeroRowHomography (samplePoint 1 1 1 0 0) = 0 ∧
      matchErr zeroRowHomography (samplePoint 1 1 1 0 0) (samplePoint 0 0 1 0 0) = FVal.pinf ∧
      (MatchAll ⟨1, [samplePoint 1 1 1 0 0]⟩ ⟨1, [samplePoint 0 0 1 0 0]⟩ zeroRowHomography).map
        (fun out =>
          (out.numFound,
            out.rows.map fun row => row.lines.map fun line => (line.marker, line.j, line.err)))
        = .ok (0, [[(" -", 0, FVal.pinf)]]) := by
  have herr : matchErr zeroRowHomography (samplePoint 1 1 1 0 0) (samplePoint 0 0 1 0 0)
      = FVal.pinf := by
    simp [matchErr, matchDx, matchDy, matchDen, zeroRowHomography, samplePoint, FVal.div,
      FVal.sub, FVal.add, FVal.mul, FVal.neg]
  refine ⟨by simp [matchDen, zeroRowHomography, samplePoint], herr, ?_⟩
  simp [MatchAll, SiftData.points, matchRows, matchRow, matchPair, herr, FVal.lt, List.enum,
    Except.map, bind, Except.bind, pure, Except.pure]
  simp [samplePoint]

/-- C3 (amended): when the denominator `h6*x + h7*y + h8` of a keypoint of the
first collection is exactly 0, `MatchAll` still divides by it for every pair:
the error of every pair is `+inf` or NaN and is printed on the line of the pair
whose `j` is the keypoint's match, and no other line is printed for the
keypoint; the test `err < 100` fails for all its pairs, so `found` stays unset
and the keypoint adds nothing to the `numFound` that `MatchAll` reports. -/
theorem C3_MatchAll_zero_den (homography : Fin 9 → ℚ) (p1 : SiftPoint)
    (pre post pts2 : List SiftPoint) (hden : matchDen homography p1 = 0) :
    (∀ p2, matchErr homography p1 p2 = .pinf ∨ matchErr homography p1 p2 = .nan) ∧
      (∀ (j : Nat) (p2 : SiftPoint), pts2[j]? = some p2 → (j : Int) = p1.match_index →
        ∃ line ∈ (matchRow homography p1 pts2).lines,
          line.j = j ∧ line.marker = " -" ∧ line.err = matchErr homography p1 p2) ∧
      (∀ line ∈ (matchRow homography p1 pts2).lines,
        line.j = p1.match_index ∧ (line.err = .pinf ∨ line.err = .nan)) ∧
      (matchRow homography p1 pts2).found = false ∧
      (matchRows homography (pre ++ p1 :: post) pts2).numFound =
        (matchRows homography (pre ++ post) pts2).numFound ∧
      (∀ siftData1 siftData2 : SiftData, siftData1.points = .ok (pre ++ p1 :: post) →
        siftData2.points = .ok pts2 →
        ∃ out, MatchAll siftData1 siftData2 homography = .ok out ∧
          out.numFound = (matchRows homography (pre ++ post) pts2).numFound) := by
  have hrow := matchPair_foldl_of_den_zero homography p1 hden pts2.enum ⟨false, []⟩
  have hfound : (matchRow homography p1 pts2).found = false := by
    unfold matchRow
    rw [hrow]
  have hnum : (matchRows homography (pre ++ p1 :: post) pts2).numFound =
      (matchRows homography (pre ++ post) pts2).numFound := by
    rw [matchRows_numFound, matchRows_numFound]
    simp [List.filter_append, List.filter_cons, hfound]
  refine ⟨fun p2 => matchErr_of_den_zero homography p1 p2 hden, ?_, ?_, hfound, hnum,
    fun siftData1 siftData2 hp1 hp2 =>
      ⟨_, MatchAll_eq_matchRows siftData1 siftData2 homography _ _ hp1 hp2, hnum⟩⟩
  · intro j p2 hj hm
    refine ⟨⟨" -", j, descriptorSum p1.data p2.data, matchErr homography p1 p2,
      p2.scale, truncToInt p2.orientation⟩, ?_, rfl, rfl, rfl⟩
    unfold matchRow
    rw [hrow]
    simp only [List.nil_append, List.mem_map, List.mem_filter, decide_eq_true_eq]
    exact ⟨(j, p2), ⟨List.mk_mem_enum_iff_getElem?.mpr hj, hm⟩, rfl⟩
  · intro line hline
    unfold matchRow at hline
    rw [hrow] at hline
    simp only [List.nil_append, List.mem_map, List.mem_filter, decide_eq_true_eq] at hline
    obtain ⟨jp, ⟨_, hm⟩, rfl⟩ := hline
    exact ⟨hm, matchErr_of_den_zero homography p1 jp.2 hden⟩

/-- C3 (witness): the amended statement at the keypoint `(1, 1)` under the
homography with a zero last row. -/
theorem C3_MatchAll_zero_den_witness :
    matchDen zeroRowHomography (samplePoint 1 1 1 0 0) = 0 ∧
      (matchRow zeroRowHomography (samplePoint 1 1 1 0 0) [samplePoint 0 0 1 0 0]).found = false ∧
      (matchRows zeroRowHomography ([] ++ samplePoint 1 1 1 0 0 :: []) [samplePoint 0 0 1 0 0]).numFound
        = (matchRows zeroRowHomography ([] ++ []) [samplePoint 0 0 1 0 0]).numFound :=
  have hden : matchDen zeroRowHomography (samplePoint 1 1 1 0 0) = 0 := by
    simp [matchDen, zeroRowHomography, samplePoint]
  ⟨hden,
    (C3_MatchAll_zero_den zeroRowHomography (samplePoint 1 1 1 0 0) [] []
      [samplePoint 0 0 1 0 0] hden).2.2.2.1,
    (C3_MatchAll_zero_den zeroRowHomography (samplePoint 1 1 1 0 0) [] []
      [samplePoint 0 0 1 0 0] hden).2.2.2.2.1⟩

/-! ## Theorems: PrintMatchData, the frame -/

/-- The frame relation is reflexive. -/
theorem Frame.refl (st : PrintState) : Frame st st := ⟨rfl, rfl, rfl, rfl, rfl⟩

/-- The frame relation is transitive. -/
theorem Frame.trans {a b c : PrintState} (h1 : Frame a b) (h2 : Frame b c) : Frame a c := by
  obtain ⟨h11, h12, h13, h14, h15⟩ := h1
  obtain ⟨h21, h22, h23, h24, h25⟩ := h2
  exact ⟨h21.trans h11, h22.trans h12, h23.trans h13, h24.trans h14, h25.trans h15⟩

/-- A loop whose body respects the frame respects the frame. -/
theorem foldlM_frame {α : Type} (f : PrintState → α → Except Fault PrintState)
    (hf : ∀ s a s', f s a = .ok s' → Frame s s') (l : List α) (st st' : PrintState)
    (h : l.foldlM f st = .ok st') : Frame st st' := by
  induction l generalizing st with
  | nil =>
    simp only [List.foldlM_nil, pure, Except.pure, Except.ok.injEq] at h
    subst h
    exact Frame.refl st
  | cons a l ih =>
    rw [List.foldlM_cons] at h
    cases hfa : f st a with
    | error e => simp [hfa, bind, Except.bind] at h
    | ok s1 =>
      simp only [hfa, bind, Except.bind] at h
      exact (hf st a s1 hfa).trans (ih s1 h)

/-- One store respects the frame. -/
theorem writePixel_frame (st : PrintState) (idx : Int) (v : ℚ) (st' : PrintState)
    (h : writePixel st idx v = .ok st') : Frame st st' := by
  unfold writePixel at h
  split at h
  · simp only [Except.ok.injEq] at h
    subst h
    exact ⟨rfl, rfl, rfl, rfl, by simp⟩
  · simp at h

/-- A sequence of stores respects the frame. -/
theorem writePixels_frame (st : PrintState) (ws : List (Int × ℚ)) (st' : PrintState)
    (h : writePixels st ws = .ok st') : Frame st st' :=
  foldlM_frame _ (fun s e s' hs => writePixel_frame s e.1 e.2 s' hs) ws st st' h

/-- The loop body once `sift1[j]` is read: under the gate `match_error < 10`
the lookup `sift2[k]` and the line, then the marker. -/
theorem printBody_eq (st : PrintState) (j : Nat) (p1 : SiftPoint)
    (h1 : st.siftData1.read j = .ok p1) :
    printBody st j =
      if p1.match_error < 10 then
        (st.siftData2.read p1.match_index).bind fun p2 =>
          (writePixels st
            ((lineIndices st.img.width p1.xpos p1.ypos (p2.xpos - p1.xpos)
              (p2.ypos - p1.ypos)).map fun i => (i, 255.0))).bind fun s =>
            writePixels s (markerWrites st.img.width st.img.height p1.xpos p1.ypos p1.scale)
      else writePixels st (markerWrites st.img.width st.img.height p1.xpos p1.ypos p1.scale) := by
  unfold printBody
  simp only [h1, bind, Except.bind, pure, Except.pure]

/-- The loop body respects the frame. -/
theorem printBody_frame (st : PrintState) (j : Nat) (st' : PrintState)
    (h : printBody st j = .ok st') : Frame st st' := by
  cases hp1 : st.siftData1.read j with
  | error e => simp [printBody, hp1, bind, Except.bind] at h
  | ok p1 =>
    rw [printBody_eq st j p1 hp1] at h
    by_cases hlt : p1.match_error < 10
    · simp only [hlt, if_true] at h
      cases hp2 : st.siftData2.read p1.match_index with
      | error e => simp [hp2, Except.bind] at h
      | ok p2 =>
        simp only [hp2, Except.bind] at h
        split at h
        · simp at h
        · rename_i s1 hs1
          exact (writePixels_frame st _ s1 hs1).trans (writePixels_frame s1 _ st' h)
    · simp only [hlt, if_false] at h
      exact writePixels_frame st _ st' h

/-! ## Theorems: evaluations on the sample inputs -/

/-- The line from `(1, 1)` with displacement `(2, 0)` in a 4-wide image. -/
theorem lineIndices_sample : lineIndices 4 1 1 2 0 = [5, 6] := by
  have hlen : lineLen 2 0 = 2 := by norm_num [lineLen, truncToInt]
  simp [lineIndices, hlen, List.range_succ, lineIndex]
  norm_num [truncToInt]

/-- The line from `(1, 1)` with displacement `(8, 8)` in a 4-wide image. -/
theorem lineIndices_unequal : lineIndices 4 1 1 8 8 = [5, 10, 15, 20, 25, 30, 35, 40] := by
  have hlen : lineLen 8 8 = 8 := by norm_num [lineLen, truncToInt]
  simp [lineIndices, hlen, List.range_succ, lineIndex]
  norm_num [truncToInt]

/-- The marker of a keypoint at `(1, 1)` with scale 1 in a 4 x 4 image. -/
theorem markerWrites_sample :
    markerWrites 4 4 1 1 1 =
      [(10, 0.0), (10, 0.0), (10, 0.0), (10, 0.0),
        (5, 255.0), (5, 255.0), (5, 255.0), (5, 255.0)] := by
  have hx : markerX 1 = 1 := by norm_num [markerX, truncToInt]
  have hs : markerSize 4 4 1 1 1 = 1 := by norm_num [markerSize, hx, truncToInt]
  simp [markerWrites, hx, hs, crossIndices, List.range_succ]

/-- The loop body on the sample state: pixels 5 and 6 are set to 255. -/
theorem printBody_sampleState :
    printBody sampleState 0 =
      .ok { sampleState with
        img := { sampleState.img with
          h_data := [0, 0, 0, 0, 0, 255.0, 255.0, 0, 0, 0, 0.0, 0, 0, 0, 0, 0] } } := by
  have hr1 : sampleState.siftData1.read ((0 : Nat) : Int) = .ok (samplePoint 1 1 1 0 0) := rfl
  have hr2 : sampleState.siftData2.read 0 = .ok (samplePoint 3 1 1 0 0) := rfl
  rw [printBody_eq sampleState 0 _ hr1]
  have hlt : (samplePoint 1 1 1 0 0).match_error < 10 := by norm_num [samplePoint]
  rw [if_pos hlt]
  have hm : (samplePoint 1 1 1 0 0).match_index = 0 := rfl
  rw [hm, hr2]
  simp only [Except.bind]
  have e1 : lineIndices sampleState.img.width (samplePoint 1 1 1 0 0).xpos
      (samplePoint 1 1 1 0 0).ypos
      ((samplePoint 3 1 1 0 0).xpos - (samplePoint 1 1 1 0 0).xpos)
      ((samplePoint 3 1 1 0 0).ypos - (samplePoint 1 1 1 0 0).ypos) = [5, 6] := by
    show lineIndices 4 1 1 (3 - 1) (1 - 1) = [5, 6]
    rw [show (3 : ℚ) - 1 = 2 by norm_num, show (1 : ℚ) - 1 = 0 by norm_num]
    exact lineIndices_sample
  have e2 : markerWrites sampleState.img.width sampleState.img.height
      (samplePoint 1 1 1 0 0).xpos (samplePoint 1 1 1 0 0).ypos
      (samplePoint 1 1 1 0 0).scale = _ := markerWrites_sample
  rw [e1, e2]
  rfl

/-- The routine on the sample state returns with pixels 5 and 6 set to 255. -/
theorem PrintMatchData_sampleState :
    PrintMatchData sampleState =
      .ok { sampleState with
        img := { sampleState.img with
          h_data := [0, 0, 0, 0, 0, 255.0, 255.0, 0, 0, 0, 0.0, 0, 0, 0, 0, 0] } } := by
  show List.foldlM printBody sampleState [0] = _
  simp only [List.foldlM_cons, List.foldlM_nil, printBody_sampleState, bind, Except.bind, pure,
    Except.pure]

/-- The loop body on the state with unequal images stops at the store to
index 20, past the 16 pixels of the image. -/
theorem printBody_unequalImagesState :
    printBody unequalImagesState 0 = .error (.pixelWrite 20) := by
  have hr1 : unequalImagesState.siftData1.read ((0 : Nat) : Int)
      = .ok (samplePoint 1 1 1 0 0) := rfl
  have hr2 : unequalImagesState.siftData2.read 0 = .ok (samplePoint 9 9 1 0 0) := rfl
  rw [printBody_eq unequalImagesState 0 _ hr1]
  have hlt : (samplePoint 1 1 1 0 0).match_error < 10 := by norm_num [samplePoint]
  rw [if_pos hlt]
  have hm : (samplePoint 1 1 1 0 0).match_index = 0 := rfl
  rw [hm, hr2]
  simp only [Except.bind]
  have e1 : lineIndices unequalImagesState.img.width (samplePoint 1 1 1 0 0).xpos
      (samplePoint 1 1 1 0 0).ypos
      ((samplePoint 9 9 1 0 0).xpos - (samplePoint 1 1 1 0 0).xpos)
      ((samplePoint 9 9 1 0 0).ypos - (samplePoint 1 1 1 0 0).ypos)
      = [5, 10, 15, 20, 25, 30, 35, 40] := by
    show lineIndices 4 1 1 (9 - 1) (9 - 1) = _
    rw [show (9 : ℚ) - 1 = 8 by norm_num]
    exact lineIndices_unequal
  rw [e1]
  rfl

/-- The loop body on the state with an unset match stops at the lookup
`sift2[-1]`. -/
theorem printBody_unsetMatchState :
    printBody unsetMatchState 0 = .error (.siftRead (-1)) := by
  have hr1 : unsetMatchState.siftData1.read ((0 : Nat) : Int)
      = .ok (samplePoint 1 1 1 (-1) 0) := rfl
  rw [printBody_eq unsetMatchState 0 _ hr1]
  have hlt : (samplePoint 1 1 1 (-1) 0).match_error < 10 := by norm_num [samplePoint]
  rw [if_pos hlt]
  rfl

/-! ## Theorems: PrintMatchData, pixel indices -/

/-- The indices of one cross: an arm offset `k` below `s`, in one of the four
directions. -/
theorem mem_crossIndices (w p s idx : Int) :
    idx ∈ crossIndices w p s ↔
      ∃ k : Nat, (k : Int) < s ∧
        (idx = p + k * w ∨ idx = p - k * w ∨ idx = p + k ∨ idx = p - k) := by
  unfold crossIndices
  simp only [List.mem_flatMap, List.mem_range, Int.lt_toNat, List.mem_cons, List.mem_singleton,
    List.not_mem_nil, or_false]

/-- A pixel `(r, c)` of the image has its index `r*w + c` inside the buffer. -/
theorem pixel_index_bounds (w h r c : Int) (hr0 : 0 ≤ r) (hr : r < h) (hc0 : 0 ≤ c)
    (hc : c < w) : 0 ≤ r * w + c ∧ r * w + c < w * h := by
  have hw : 0 ≤ w := by omega
  have h1 : 0 ≤ r * w := mul_nonneg hr0 hw
  have h2 : (r + 1) * w ≤ h * w := mul_le_mul_of_nonneg_right (by omega) hw
  constructor
  · omega
  · nlinarith

/-- An arm pixel at offset `k` from a centre `(cx, cy)` that is at least `k`
away from every border is a pixel of the image. -/
theorem cross_pixel (w h cx cy k idx : Int) (hk : 0 ≤ k) (hx : k ≤ cx) (hy : k ≤ cy)
    (hxw : cx + k < w) (hyh : cy + k < h)
    (hidx : idx = cy * w + cx + k * w ∨ idx = cy * w + cx - k * w ∨
      idx = cy * w + cx + k ∨ idx = cy * w + cx - k) :
    ∃ r c : Int, idx = r * w + c ∧ 0 ≤ r ∧ r < h ∧ 0 ≤ c ∧ c < w ∧
      |r - cy| ≤ k ∧ |c - cx| ≤ k := by
  rcases hidx with h1 | h1 | h1 | h1
  · exact ⟨cy + k, cx, by rw [h1]; ring, by omega, by omega, by omega, by omega,
      by rw [abs_le]; constructor <;> omega, by rw [abs_le]; constructor <;> omega⟩
  · exact ⟨cy - k, cx, by rw [h1]; ring, by omega, by omega, by omega, by omega,
      by rw [abs_le]; constructor <;> omega, by rw [abs_le]; constructor <;> omega⟩
  · exact ⟨cy, cx + k, by rw [h1]; ring, by omega, by omega, by omega, by omega,
      by rw [abs_le]; constructor <;> omega, by rw [abs_le]; constructor <;> omega⟩
  · exact ⟨cy, cx - k, by rw [h1]; ring, by omega, by omega, by omega, by omega,
      by rw [abs_le]; constructor <;> omega, by rw [abs_le]; constructor <;> omega⟩

/-- The arm length is below each of the five arguments of the nested `min`. -/
theorem markerSize_le (w h : Int) (xpos ypos scale : ℚ) :
    markerSize w h xpos ypos scale ≤ markerX xpos ∧
      markerSize w h xpos ypos scale ≤ markerX ypos ∧
      markerSize w h xpos ypos scale ≤ w - markerX xpos - 2 ∧
      markerSize w h xpos ypos scale ≤ h - markerX ypos - 2 ∧
      markerSize w h xpos ypos scale ≤ truncToInt (1.41 * scale) := by
  unfold markerSize
  simp only [le_min_iff, min_le_iff, le_refl, true_or, or_true, and_self]

/-- C8: for every width, height, keypoint position and scale, every index the
two marker loops store to lies in `[0, w*h)` and is the index `r*w + c` of a
pixel with `0 <= r < h` and `0 <= c < w` at most `s` rows and columns away from
the marker centre; a store happens only when the arm length `s` is positive. -/
theorem C8_markerWrites_in_bounds (w h : Int) (xpos ypos scale : ℚ) (e : Int × ℚ)
    (he : e ∈ markerWrites w h xpos ypos scale) :
    0 < markerSize w h xpos ypos scale ∧ 0 ≤ e.1 ∧ e.1 < w * h ∧
      ∃ r c : Int, e.1 = r * w + c ∧ 0 ≤ r ∧ r < h ∧ 0 ≤ c ∧ c < w ∧
        |r - markerX ypos| ≤ markerSize w h xpos ypos scale ∧
        |c - markerX xpos| ≤ markerSize w h xpos ypos scale := by
  obtain ⟨hsx, hsy, hsw, hsh, _⟩ := markerSize_le w h xpos ypos scale
  unfold markerWrites at he
  simp only [List.mem_append, List.mem_map, mem_crossIndices] at he
  have key : ∀ r c : Int, e.1 = r * w + c → 0 ≤ r → r < h → 0 ≤ c → c < w →
      |r - markerX ypos| ≤ markerSize w h xpos ypos scale →
      |c - markerX xpos| ≤ markerSize w h xpos ypos scale →
      0 ≤ e.1 ∧ e.1 < w * h ∧
      ∃ r c : Int, e.1 = r * w + c ∧ 0 ≤ r ∧ r < h ∧ 0 ≤ c ∧ c < w ∧
        |r - markerX ypos| ≤ markerSize w h xpos ypos scale ∧
        |c - markerX xpos| ≤ markerSize w h xpos ypos scale := by
    intro r c hrc hr0 hr hc0 hc ha hb
    obtain ⟨b1, b2⟩ := pixel_index_bounds w h r c hr0 hr hc0 hc
    exact ⟨hrc ▸ b1, hrc ▸ b2, r, c, hrc, hr0, hr, hc0, hc, ha, hb⟩
  rcases he with ⟨idx, ⟨k, hk, hidx⟩, rfl⟩ | ⟨idx, ⟨k, hk, hidx⟩, rfl⟩
  · have hk0 : (0 : Int) ≤ k := Int.ofNat_nonneg k
    refine ⟨by omega, ?_⟩
    obtain ⟨r, c, hrc, hr0, hr, hc0, hc, ha, hb⟩ :=
      cross_pixel w h (markerX xpos + 1) (markerX ypos + 1) k idx hk0 (by omega) (by omega)
        (by omega) (by omega)
        (by
          rcases hidx with h1 | h1 | h1 | h1
          · left; rw [h1]; ring
          · right; left; rw [h1]; ring
          · right; right; left; rw [h1]; ring
          · right; right; right; rw [h1]; ring)
    rw [abs_le] at ha hb
    exact key r c hrc hr0 hr hc0 hc (by rw [abs_le]; constructor <;> omega)
      (by rw [abs_le]; constructor <;> omega)
  · have hk0 : (0 : Int) ≤ k := Int.ofNat_nonneg k
    refine ⟨by omega, ?_⟩
    obtain ⟨r, c, hrc, hr0, hr, hc0, hc, ha, hb⟩ :=
      cross_pixel w h (markerX xpos) (markerX ypos) k idx hk0 (by omega) (by omega)
        (by omega) (by omega)
        (by
          rcases hidx with h1 | h1 | h1 | h1
          · left; rw [h1]; ring
          · right; left; rw [h1]; ring
          · right; right; left; rw [h1]; ring
          · right; right; right; rw [h1]; ring)
    rw [abs_le] at ha hb
    exact key r c hrc hr0 hr hc0 hc (by rw [abs_le]; constructor <;> omega)
      (by rw [abs_le]; constructor <;> omega)

/-- C8 (witness): the bright store to pixel 5 of the marker at `(1, 1)` in a
4 x 4 image. -/
theorem C8_markerWrites_in_bounds_witness :
    ((5, 255.0) : Int × ℚ) ∈ markerWrites 4 4 1 1 1 ∧
      0 < markerSize 4 4 1 1 1 ∧ (0 : Int) ≤ 5 ∧ (5 : Int) < 4 * 4 :=
  have he : ((5, 255.0) : Int × ℚ) ∈ markerWrites 4 4 1 1 1 := by
    rw [markerWrites_sample]
    simp
  ⟨he, (C8_markerWrites_in_bounds 4 4 1 1 1 (5, 255.0) he).1,
    (C8_markerWrites_in_bounds 4 4 1 1 1 (5, 255.0) he).2.1,
    (C8_markerWrites_in_bounds 4 4 1 1 1 (5, 255.0) he).2.2.1⟩

/-- C9 (evaluation at the failing input): the first image is 4 x 4, the
keypoint `(1, 1)` lies inside it, its match error 0 is under 10 and its match
`(9, 9)` lies inside the 16 x 16 second image; the line loop computes the indices
5, 10, 15, 20, ..., 40, of which 20 and the later ones are outside `[0, 16)`,
and the routine stops at the store to index 20. -/
theorem C9_PrintMatchData_line_leaves_image :
    ((0 : ℚ) ≤ 1 ∧ (1 : ℚ) < 4) ∧ ((0 : ℚ) ≤ 9 ∧ (9 : ℚ) < 16) ∧
      lineIndices 4 1 1 (9 - 1) (9 - 1) = [5, 10, 15, 20, 25, 30, 35, 40] ∧
      ¬ ((20 : Int) < 4 * 4) ∧
      PrintMatchData unequalImagesState = .error (.pixelWrite 20) := by
  refine ⟨by norm_num, by norm_num, ?_, by norm_num, ?_⟩
  · rw [show (9 : ℚ) - 1 = 8 by norm_num]
    exact lineIndices_unequal
  · show List.foldlM printBody unequalImagesState [0] = _
    simp only [List.foldlM_cons, printBody_unequalImagesState, bind, Except.bind]

/-! ## Theorems: PrintMatchData, the lookups in the second collection -/

/-- A store does not look at the second collection. -/
theorem writePixel_siftData2 (st : PrintState) (d : SiftData) (idx : Int) (v : ℚ) :
    writePixel { st with siftData2 := d } idx v =
      (writePixel st idx v).map fun s => { s with siftData2 := d } := by
  unfold writePixel
  by_cases h : 0 ≤ idx ∧ idx < st.img.h_data.length
  · simp [h, Except.map]
  · simp [h, Except.map]

/-- A sequence of stores does not look at the second collection. -/
theorem writePixels_siftData2 (st : PrintState) (d : SiftData) (ws : List (Int × ℚ)) :
    writePixels { st with siftData2 := d } ws =
      (writePixels st ws).map fun s => { s with siftData2 := d } := by
  unfold writePixels
  induction ws generalizing st with
  | nil => simp [pure, Except.pure, Except.map]
  | cons e ws ih =>
    simp only [List.foldlM_cons, bind, Except.bind]
    have := writePixel_siftData2 st d e.1 e.2
    unfold writePixel at this
    unfold writePixel
    rw [this]
    cases hw : writePixel st e.1 e.2 with
    | error f => unfold writePixel at hw; simp [hw, Except.map]
    | ok s1 =>
      unfold writePixel at hw
      simp only [hw, Except.map]
      exact ih s1

/-- A read at an index inside the array succeeds. -/
theorem SiftData.read_of_lt (d : SiftData) (k : Int) (h0 : 0 ≤ k)
    (hk : k < d.h_data.length) :
    ∃ p, d.read k = .ok p ∧ d.h_data[k.toNat]? = some p := by
  have hlt : k.toNat < d.h_data.length := by omega
  refine ⟨d.h_data[k.toNat], ?_, List.getElem?_eq_getElem hlt⟩
  unfold SiftData.read
  rw [if_pos h0, List.getElem?_eq_getElem hlt]

/-- A read at an index outside the array is a fault. -/
theorem SiftData.read_of_not_lt (d : SiftData) (k : Int)
    (hk : ¬ (0 ≤ k ∧ k < d.h_data.length)) : d.read k = .error (.siftRead k) := by
  unfold SiftData.read
  by_cases h0 : 0 ≤ k
  · have hge : d.h_data.length ≤ k.toNat := by omega
    rw [if_pos h0, List.getElem?_eq_none hge]
  · rw [if_neg h0]

/-- C10 (counterexample): the keypoint has match index -1 and the second
collection is empty, so the match is not a valid index; its match error 0 is
under 10, and `PrintMatchData` performs the lookup `sift2[-1]`. -/
theorem C10_PrintMatchData_counterexample :
    unsetMatchState.siftData2.numPts = 0 ∧
      unsetMatchState.siftData1.h_data.map (fun p => p.match_index) = [-1] ∧
      PrintMatchData unsetMatchState = .error (.siftRead (-1)) := by
  refine ⟨rfl, rfl, ?_⟩
  show List.foldlM printBody unsetMatchState [0] = _
  simp only [List.foldlM_cons, printBody_unsetMatchState, bind, Except.bind]

/-! ## Theorems: PrintMatchData, what the stores do to the pixels -/

/-- The loop counter values split at any `j` below the bound. -/
theorem range_split (n j : Nat) (hj : j < n) :
    ∃ rest, List.range n = List.range j ++ j :: rest := by
  induction n with
  | zero => omega
  | succ n ih =>
    rw [List.range_succ]
    by_cases hjn : j = n
    · subst hjn
      exact ⟨[], rfl⟩
    · obtain ⟨rest, hrest⟩ := ih (by omega)
      exact ⟨rest ++ [n], by rw [hrest]; simp⟩

/-- A run that has reached iteration `j` in state `sj` continues with the loop
body there. -/
theorem PrintMatchData_reach (st sj : PrintState) (j : Nat)
    (hj : (j : Int) < st.siftData1.numPts)
    (hreach : (List.range j).foldlM printBody st = .ok sj) :
    ∃ rest : List Nat,
      PrintMatchData st = (printBody sj j).bind fun s => List.foldlM printBody s rest := by
  obtain ⟨rest, hrest⟩ := range_split st.siftData1.numPts.toNat j (by omega)
  refine ⟨rest, ?_⟩
  unfold PrintMatchData
  rw [hrest, List.foldlM_append, hreach]
  simp only [bind, Except.bind, List.foldlM_cons]

/-- C10 (amended): let a run of `PrintMatchData` reach iteration `j` in state
`sj`, with `p1 = sift1[j]`.  When `match_error >= 10` the body performs the
marker stores and nothing else (no line is drawn) and does not depend on the
second collection (no element is read).  When `match_error < 10` the lookup
`sift2[match]` is performed whatever the value of `match`: a match outside the
array makes it an out-of-range read, at which the body and the routine stop; a
match with `0 <= match < numPts2` reads that element, and the line toward it and
the marker are drawn. -/
theorem C10_PrintMatchData_lookup (st sj : PrintState) (j : Nat) (p1 : SiftPoint)
    (hj : (j : Int) < st.siftData1.numPts)
    (hreach : (List.range j).foldlM printBody st = .ok sj)
    (h1 : st.siftData1.read j = .ok p1) :
    (¬ p1.match_error < 10 →
        printBody sj j =
            writePixels sj
              (markerWrites st.img.width st.img.height p1.xpos p1.ypos p1.scale) ∧
          ∀ d : SiftData, printBody { sj with siftData2 := d } j =
            (printBody sj j).map fun s => { s with siftData2 := d }) ∧
      (p1.match_error < 10 →
        ¬ (0 ≤ p1.match_index ∧ p1.match_index < st.siftData2.h_data.length) →
        printBody sj j = .error (.siftRead p1.match_index) ∧
          PrintMatchData st = .error (.siftRead p1.match_index)) ∧
      (p1.match_error < 10 → 0 ≤ p1.match_index → p1.match_index < st.siftData2.numPts →
        st.siftData2.numPts ≤ st.siftData2.h_data.length →
        ∃ p2, st.siftData2.h_data[p1.match_index.toNat]? = some p2 ∧
          printBody sj j =
            (writePixels sj
              ((lineIndices st.img.width p1.xpos p1.ypos (p2.xpos - p1.xpos)
                (p2.ypos - p1.ypos)).map fun i => (i, 255.0))).bind fun s =>
              writePixels s
                (markerWrites st.img.width st.img.height p1.xpos p1.ypos p1.scale)) := by
  obtain ⟨f1, f2, fw, fh, _⟩ := foldlM_frame printBody printBody_frame _ st sj hreach
  have h1j : sj.siftData1.read j = .ok p1 := by rw [f1]; exact h1
  refine ⟨?_, ?_, ?_⟩
  · intro hge
    refine ⟨by rw [printBody_eq sj j p1 h1j, if_neg hge, fw, fh], ?_⟩
    intro d
    have h1d : ({ sj with siftData2 := d } : PrintState).siftData1.read j = .ok p1 := h1j
    rw [printBody_eq _ j p1 h1d, printBody_eq sj j p1 h1j, if_neg hge, if_neg hge]
    exact writePixels_siftData2 sj d _
  · intro hlt hbad
    have hb : printBody sj j = .error (.siftRead p1.match_index) := by
      rw [printBody_eq sj j p1 h1j, if_pos hlt, f2, SiftData.read_of_not_lt _ _ hbad]
      rfl
    refine ⟨hb, ?_⟩
    obtain ⟨rest, hrest⟩ := PrintMatchData_reach st sj j hj hreach
    rw [hrest, hb]
    rfl
  · intro hlt h0 hk hn
    obtain ⟨p2, hp2, hget⟩ := SiftData.read_of_lt st.siftData2 p1.match_index h0 (by omega)
    refine ⟨p2, hget, ?_⟩
    rw [printBody_eq sj j p1 h1j, if_pos hlt, f2, hp2, fw, fh]
    rfl

/-- C10 (witness): iteration 0 on three states.  With match index -1 and match
error 0 the lookup `sift2[-1]` is performed and the routine stops there; with
match index -1 and match error 10 only the marker is drawn; with match index 0
and match error 0 the element `sift2[0]` is read. -/
theorem C10_PrintMatchData_lookup_witness :
    (unsetMatchState.siftData1.read ((0 : Nat) : Int) = .ok (samplePoint 1 1 1 (-1) 0) ∧
        (samplePoint 1 1 1 (-1) 0).match_error < 10 ∧
        printBody unsetMatchState 0
          = .error (.siftRead (samplePoint 1 1 1 (-1) 0).match_index) ∧
        PrintMatchData unsetMatchState
          = .error (.siftRead (samplePoint 1 1 1 (-1) 0).match_index)) ∧
      (¬ (samplePoint 1 1 1 (-1) 10).match_error < 10 ∧
        printBody unreportedState 0 =
          writePixels unreportedState
            (markerWrites unreportedState.img.width unreportedState.img.height
              (samplePoint 1 1 1 (-1) 10).xpos (samplePoint 1 1 1 (-1) 10).ypos
              (samplePoint 1 1 1 (-1) 10).scale)) ∧
      (∃ p2, sampleState.siftData2.h_data[(samplePoint 1 1 1 0 0).match_index.toNat]? = some p2 ∧
        printBody sampleState 0 =
          (writePixels sampleState
            ((lineIndices sampleState.img.width (samplePoint 1 1 1 0 0).xpos
              (samplePoint 1 1 1 0 0).ypos (p2.xpos - (samplePoint 1 1 1 0 0).xpos)
              (p2.ypos - (samplePoint 1 1 1 0 0).ypos)).map fun i => (i, 255.0))).bind fun s =>
            writePixels s
              (markerWrites sampleState.img.width sampleState.img.height
                (samplePoint 1 1 1 0 0).xpos (samplePoint 1 1 1 0 0).ypos
                (samplePoint 1 1 1 0 0).scale)) :=
  have hlt : (samplePoint 1 1 1 (-1) 0).match_error < 10 := by norm_num [samplePoint]
  have hlt0 : (samplePoint 1 1 1 0 0).match_error < 10 := by norm_num [samplePoint]
  have hge : ¬ (samplePoint 1 1 1 (-1) 10).match_error < 10 := by norm_num [samplePoint]
  have hbad := (C10_PrintMatchData_lookup unsetMatchState unsetMatchState 0
    (samplePoint 1 1 1 (-1) 0) (by decide) rfl rfl).2.1 hlt (by simp [samplePoint])
  ⟨⟨rfl, hlt, hbad.1, hbad.2⟩,
    ⟨hge, ((C10_PrintMatchData_lookup unreportedState unreportedState 0
      (samplePoint 1 1 1 (-1) 10) (by decide) rfl rfl).1 hge).1⟩,
    (C10_PrintMatchData_lookup sampleState sampleState 0 (samplePoint 1 1 1 0 0)
      (by decide) rfl rfl).2.2 hlt0 (by decide) (by decide) (by decide)⟩

end CudaSift
